import Mathlib

/-!
# Verification of the MapPosterCreator resolver subsystem

Shallow embedding of the resolver core of the MapPosterCreator repository:

* the polygon text codec (`_parse_polygons`, `get_region_polygons` in
  `map_poster_creator/data.py`),
* gazetteer place resolution (`resolve_city`),
* the unscoped nearest-centroid region matcher (the distance loop of
  `find_download_shp`),
* the idempotent download/extract cache (`_download_extract_shp`),
* the catalog crawl (`navigate_node` in `scripts/build_region_tree.py`).

Python values are embedded as follows: `str` becomes `String` / `List Char`
(operations on them are re-implemented by structural recursion so that the
kernel can evaluate them), `float` becomes `Rat`, pandas data frames become
lists of record structures, raised exceptions become `Except`/`Option`
results.  External libraries (shapely, pandas, ete3, wget) are modelled at
their documented behaviour; each such modelling choice is recorded in the
doc comment of the definition that uses it.
-/

namespace MapPoster

/-! ## Python string primitives

The source manipulates ASCII text (the gazetteer columns are ASCII-folded by
`unidecode` before they are ever compared, and the polygon files are plain
ASCII).  The models below therefore implement the ASCII fragment of the
Python string methods, by structural recursion on `List Char`. -/

/-- Python whitespace (ASCII fragment): the characters stripped by
`str.strip()` and split on by no-argument `str.split()`. -/
def isWs (c : Char) : Bool :=
  c == ' ' || c == '\t' || c == '\n' || c == '\r'

/-- Model of Python `str.strip()`: drop leading and trailing whitespace. -/
def pyStrip (cs : List Char) : List Char :=
  ((cs.dropWhile isWs).reverse.dropWhile isWs).reverse

/-- Split a character list at every character satisfying `p`, keeping empty
pieces (the behaviour of Python `str.split(sep)` for each separator hit). -/
def chSplitBy (p : Char → Bool) : List Char → List (List Char)
  | [] => [[]]
  | c :: cs =>
    match chSplitBy p cs with
    | [] => [[]]
    | g :: gs => if p c then [] :: g :: gs else (c :: g) :: gs

/-- Model of Python `str.split(sep)` for a one-character separator. -/
def chSplit (sep : Char) (cs : List Char) : List (List Char) :=
  chSplitBy (· == sep) cs

/-- Model of no-argument Python `str.split()`: split on whitespace and
discard empty pieces. -/
def pySplitWs (cs : List Char) : List (List Char) :=
  (chSplitBy isWs cs).filter (fun g => !g.isEmpty)

/-- Model of Python `str.lower` (ASCII fragment; the compared columns are
ASCII-folded). -/
def strLower (s : String) : String :=
  ⟨s.data.map Char.toLower⟩

/-- Python `str.isalpha` (ASCII fragment): nonempty and all alphabetic. -/
def pyIsAlpha (cs : List Char) : Bool :=
  !cs.isEmpty && cs.all Char.isAlpha

/-- Python `str.isdigit` (ASCII fragment): nonempty and all digits. -/
def pyIsDigit (cs : List Char) : Bool :=
  !cs.isEmpty && cs.all Char.isDigit

/-- Accumulating decimal value of a digit string. -/
def digitsValAux (acc : Nat) : List Char → Nat
  | [] => acc
  | c :: cs => digitsValAux (acc * 10 + (c.toNat - '0'.toNat)) cs

/-- Unsigned part of Python's `float` constructor on plain decimal notation:
`digits`, `digits.digits`, `digits.` or `.digits`.  Anything else (including
the empty string and a bare `.`) fails. -/
def pyFloatCore (cs : List Char) : Option Rat :=
  let intPart := cs.takeWhile Char.isDigit
  match cs.dropWhile Char.isDigit with
  | [] => if intPart.isEmpty then none else some (digitsValAux 0 intPart)
  | '.' :: frac =>
    if frac.all Char.isDigit && !(intPart.isEmpty && frac.isEmpty) then
      some ((digitsValAux 0 intPart : Rat)
        + (digitsValAux 0 frac : Rat) / (10 ^ frac.length : Rat))
    else none
  | _ => none

/-- Model of Python's `float` constructor on plain signed decimal notation.
The exotic forms `float` also accepts (exponents, `inf`, `nan`, underscores)
are not modelled; they never make a malformed line well-formed, and the
theorems below quantify only over inputs this model accepts or rejects. -/
def pyFloat? : List Char → Option Rat
  | '-' :: rest => (pyFloatCore rest).map (fun q => -q)
  | '+' :: rest => pyFloatCore rest
  | cs => pyFloatCore cs

/-! ## PolygonCodec: `_parse_polygons` (`map_poster_creator/data.py`)

```python
def _parse_polygons(data: str) -> Sequence[Polygon]:
    polygons = []
    current_polygon = []
    for line in data.strip().split("_"):
        line = line.strip()
        if line == "END":
            if current_polygon:
                polygons.append(Polygon(current_polygon))
            current_polygon = []
        elif line.replace("-", "").isalpha():
            continue
        elif line.isdigit():
            continue
        else:
            coords = list(map(float, line.split()))
            current_polygon.append(coords)
    return polygons
```

A coordinate is the list of floats on one line; a shapely `Polygon` is
modelled as its list of coordinates (shapely is an external library; the
codec's output is fully described by the coordinate lists it hands to the
`Polygon` constructor).  A `float` call raising `ValueError` is modelled by
`Option`: the whole parse returns `none` exactly when the Python function
raises. -/

/-- One coordinate: the floats of one whitespace-separated line. -/
abbrev Coord := List Rat

/-- A polygon, modelled as the coordinate list passed to shapely's
`Polygon` constructor. -/
abbrev Poly := List Coord

/-- The stripped line that closes a polygon. -/
def endMark : List Char := ['E', 'N', 'D']

/-- Model of `list(map(float, line.split()))`: fails iff some token is non-numeric. -/
def parseCoord (cs : List Char) : Option Coord :=
  (pySplitWs cs).mapM pyFloat?

/-- One iteration of the `_parse_polygons` loop: state is
`(polygons, current_polygon)`. -/
def parseStep (st : List Poly × Poly) (rawLine : List Char) :
    Option (List Poly × Poly) :=
  let line := pyStrip rawLine
  if line = endMark then
    some (if st.2.isEmpty then (st.1, []) else (st.1 ++ [st.2], []))
  else if pyIsAlpha (line.filter (fun c => c ≠ '-')) then
    some st
  else if pyIsDigit line then
    some st
  else
    match parseCoord line with
    | some c => some (st.1, st.2 ++ [c])
    | none => none

/-- The `_parse_polygons` loop over the split lines. -/
def parseLinesAux (st : List Poly × Poly) : List (List Char) → Option (List Poly)
  | [] => some st.1
  | l :: ls =>
    match parseStep st l with
    | some st' => parseLinesAux st' ls
    | none => none

/-- Embedding of `_parse_polygons(data)`: split the stripped blob on `_`, run the
classification loop; `none` models the `ValueError` raised by a
non-numeric coordinate token. -/
def _parse_polygons (data : String) : Option (List Poly) :=
  parseLinesAux ([], []) (chSplit '_' (pyStrip data.data))

/-- Embedding of `get_region_polygons` (`map_poster_creator/data.py`): a node without a
`polygon` feature yields `[]`; a parse failure (`except ValueError`) also
yields `[]` instead of propagating. -/
def get_region_polygons (polygonText : Option String) : List Poly :=
  match polygonText with
  | none => []
  | some t =>
    match _parse_polygons t with
    | some ps => ps
    | none => []

/-! ### Line classification and the blob grammar

Derived notions used to state the codec claims: the classification the
loop applies to a single line, and the shape of a well-formed blob
(mirroring the §4.1 grammar) — a sequence of blocks, each a mix of
ignorable lines (labels, index counters) and well-formed coordinate lines
with at least one coordinate line, each block closed by an `END` line,
optionally followed by a trailing run of non-`END` well-formed lines
(whose coordinates the loop accumulates but never emits). -/

/-- A line the classification loop skips: a label (letters/hyphens, after
removing `-`) or an index counter (digits); not the terminator. -/
def ignorableLine (raw : List Char) : Bool :=
  let line := pyStrip raw
  !(line == endMark)
    && (pyIsAlpha (line.filter (fun c => c ≠ '-')) || pyIsDigit line)

/-- The coordinate a line contributes, when it is classified as a
coordinate line and all its tokens are numeric. -/
def coordLineVal (raw : List Char) : Option Coord :=
  let line := pyStrip raw
  if line = endMark then none
  else if pyIsAlpha (line.filter (fun c => c ≠ '-')) then none
  else if pyIsDigit line then none
  else parseCoord line

/-- A line that closes the current polygon. -/
def isEndLine (raw : List Char) : Bool :=
  pyStrip raw == endMark

/-- A line allowed inside a block: ignorable or a well-formed coordinate
line. -/
def goodBlockLine (raw : List Char) : Bool :=
  ignorableLine raw || (coordLineVal raw).isSome

/-- The coordinates a block contributes, in line order. -/
def blockCoords (ls : List (List Char)) : Poly :=
  ls.filterMap coordLineVal

/-- A block: only ignorable/coordinate lines, at least one coordinate. -/
def goodBlock (ls : List (List Char)) : Bool :=
  ls.all goodBlockLine && !(blockCoords ls).isEmpty

/-- A line on which the classification loop reaches the `float` conversion
and fails there: neither terminator, label nor index, with a non-numeric
token. -/
def badCoordLine (raw : List Char) : Bool :=
  let line := pyStrip raw
  !(line == endMark)
    && !(pyIsAlpha (line.filter (fun c => c ≠ '-')))
    && !(pyIsDigit line)
    && (parseCoord line).isNone

/-- Well-formed blobs, as line lists after the split on `_`, paired with
the polygons the grammar assigns them. -/
inductive BlobOk : List (List Char) → List Poly → Prop where
  /-- A trailing run with no `END` marker contributes no polygon. -/
  | trail (ls : List (List Char)) (h : ls.all goodBlockLine = true) :
      BlobOk ls []
  /-- A block closed by an `END` line contributes its coordinates. -/
  | block (b : List (List Char)) (endl : List Char)
      (rest : List (List Char)) (ps : List Poly)
      (hb : goodBlock b = true) (he : isEndLine endl = true)
      (hrest : BlobOk rest ps) :
      BlobOk (b ++ endl :: rest) (blockCoords b :: ps)

/-! ## PlaceResolver: `resolve_city` (`map_poster_creator/data.py`)

```python
def resolve_city(city, country=None, *, interactive=True, element_if_one=True, first=False):
    city_df = get_city_df()
    if country is None:
        candidates = city_df[city_df["asciiname"].apply(str.lower) == unidecode(city).lower()].copy()
    else:
        countries = get_country_df()
        country_code = countries[countries["Name"].apply(str.lower) == country.lower()].iloc[0]["Code"]
        candidates = city_df[(city_df["asciiname"].apply(str.lower) == unidecode(city).lower())
                             & (city_df["country code"] == country_code)].copy()
    candidates.sort_values(by="population", ascending=False, inplace=True)
    if candidates.shape[0] == 0:
        return None
    if candidates.shape[0] > 1 and interactive:
        return _interactive_resolve(candidates)
    if (candidates.shape[0] == 1 and element_if_one) or first:
        return candidates.iloc[0]
    return candidates
```

The gazetteer and country tables are embedded as lists of rows in file
order; the `index` field of a gazetteer row is its pandas index (the CSV
row label).  `unidecode` is an external library and is threaded through as
an opaque parameter `udec`.  The `.iloc[0]` on an empty country selection
raises `IndexError`, modelled by `ResolveError.countryIndexError`; calling
`_interactive_resolve` (a blocking terminal prompt) is modelled by the
outcome constructor `interactivePrompt` carrying the ranked candidate list
handed to the prompt. -/

/-- A gazetteer (geonames) row: the columns `resolve_city` reads, plus the
pandas index recording its position in the table. -/
structure CityRow where
  index : Nat
  asciiname : String
  countryCode : String
  population : Nat
  latitude : Rat
  longitude : Rat
deriving DecidableEq, Repr, Inhabited

/-- A row of the country table (columns `Code`, `Name`). -/
structure CountryRow where
  code : String
  name : String
deriving DecidableEq, Repr, Inhabited

/-- Errors `resolve_city` can raise: `.iloc[0]` on the empty country
selection produced by an unknown country name. -/
inductive ResolveError where
  | countryIndexError
deriving DecidableEq, Repr

/-- The four distinguishable outcomes of `resolve_city`: `None`, entering
the `_interactive_resolve` prompt (with the ranked candidates shown to the
user), a single row, or the full ranked frame. -/
inductive ResolveOutcome where
  | empty
  | interactivePrompt (ranked : List CityRow)
  | single (row : CityRow)
  | table (ranked : List CityRow)
deriving DecidableEq, Repr

instance {ε α : Type} [DecidableEq ε] [DecidableEq α] :
    DecidableEq (Except ε α) := fun a b =>
  match a, b with
  | .error e, .error f => decidable_of_iff (e = f) (by simp)
  | .error _, .ok _ => isFalse (by simp)
  | .ok _, .error _ => isFalse (by simp)
  | .ok x, .ok y => decidable_of_iff (x = y) (by simp)

/-- Comparison used by `sort_values(by="population")`. -/
def popLE (a b : CityRow) : Prop :=
  a.population ≤ b.population

instance : DecidableRel popLE := fun a b => Nat.decLe a.population b.population

instance : IsTotal CityRow popLE := ⟨fun a b => Nat.le_total a.population b.population⟩

instance : IsTrans CityRow popLE := ⟨fun _ _ _ h h' => Nat.le_trans h h'⟩

/-- Model of `candidates.sort_values(by="population", ascending=False)`.
pandas implements a descending sort (`nargsort`) by reversing the column
values together with their positions, taking the ascending argsort of the
reversed values, and reversing the resulting indexer again (pandas
GH #6399): with a stable underlying argsort this double reversal makes the
descending sort stable — equal-key rows keep their original relative
order.  The default `kind="quicksort"` (numpy introsort) degenerates to
insertion sort — which is stable — on sub-arrays below 16 elements, so on
candidate sets of that size (every set arising in the theorems and
witnesses below) the model is exact: the reversal of a stable ascending
sort of the reversed list. -/
def pandasSortDesc (rows : List CityRow) : List CityRow :=
  (List.insertionSort popLE rows.reverse).reverse

/-- Embedding of `countries[countries["Name"].apply(str.lower) == country.lower()].iloc[0]["Code"]`:
the first case-insensitive name match; `none` models the `IndexError` of
`.iloc[0]` on an empty selection. -/
def countryCodeLookup (countryDf : List CountryRow) (country : String) :
    Option String :=
  match countryDf.filter (fun row => strLower row.name == strLower country) with
  | [] => none
  | row :: _ => some row.code

/-- The candidate-selection step of `resolve_city`: filter the gazetteer by
ASCII-folded, case-insensitive name equality, and (when a country is given)
by the code of the first country-table row matching the country name. -/
def gazetteerMatches (udec : String → String) (cityDf : List CityRow)
    (countryDf : List CountryRow) (city : String) (country : Option String) :
    Except ResolveError (List CityRow) :=
  let key := strLower (udec city)
  match country with
  | none => .ok (cityDf.filter (fun r => strLower r.asciiname == key))
  | some c =>
    match countryCodeLookup countryDf c with
    | none => .error .countryIndexError
    | some code =>
      .ok (cityDf.filter
        (fun r => strLower r.asciiname == key && r.countryCode == code))

/-- Embedding of `resolve_city`: candidate selection, descending population sort, then
the cardinality policy in source order (empty, interactive prompt,
single-row, full frame). -/
def resolve_city (udec : String → String) (cityDf : List CityRow)
    (countryDf : List CountryRow) (city : String) (country : Option String)
    (interactive : Bool := true) (element_if_one : Bool := true)
    (first : Bool := false) : Except ResolveError ResolveOutcome :=
  match gazetteerMatches udec cityDf countryDf city country with
  | .error e => .error e
  | .ok cands =>
    let ranked := pandasSortDesc cands
    if ranked.length = 0 then .ok .empty
    else if 1 < ranked.length ∧ interactive = true then
      .ok (.interactivePrompt ranked)
    else if (ranked.length = 1 ∧ element_if_one = true) ∨ first = true then
      .ok (.single ranked.headI)
    else .ok (.table ranked)

/-- Lexicographic order on population refined by a tie-break relation `P`
on rows: the order in which the stable ascending population sort leaves
the rows of a `P`-pairwise input list. -/
def lexLTBy (P : CityRow → CityRow → Prop) (a b : CityRow) : Prop :=
  a.population < b.population
    ∨ (a.population = b.population ∧ P a b)

/-! ## SpatialRegionMatcher: the nearest-centroid loop of `find_download_shp`

```python
    distances = []
    for region_node, region_centroid_lst in get_region_centroids(only_leaf=True).items():
        try:
            distance = min(city_point.distance(region_centroid)
                           for region_centroid in region_centroid_lst)
            distances.append((region_node, distance))
        except ValueError:
            continue
    sorted_distances = sorted(distances, key=lambda x: x[1], reverse=False)
    region_node = (... if interactive else sorted_distances[0][0])
```

`get_region_centroids(only_leaf=True)` is a dict from leaf node to the
centroids of its parsed polygons, in traversal order; it is embedded as the
association list `regions`, generic in the node type.  shapely's
`point.distance` is the planar Euclidean distance; the embedding uses the
*squared* Euclidean distance, which is a strictly monotone transform on the
non-negative reals, so every comparison — the per-node `min`, the global
sort, and every tie — is decided identically, while keeping the development
inside `Rat`.  `min()` of an empty generator raises `ValueError`, caught by
the `continue`: nodes with no polygons contribute no distance entry.
`sorted` is Python's stable sort; `sorted_distances[0]` on an empty list
raises `IndexError`, modelled by `none`. -/

/-- A planar point (longitude, latitude). -/
structure Pt where
  x : Rat
  y : Rat
deriving DecidableEq, Repr

/-- Squared Euclidean distance (monotone proxy for shapely's
`point.distance`, see the section comment). -/
def dist2 (p q : Pt) : Rat :=
  (p.x - q.x) ^ 2 + (p.y - q.y) ^ 2

/-- Embedding of `min(city_point.distance(c) for c in centroids)`: `none` models the
`ValueError` on an empty centroid list. -/
def minCentroidDist (p : Pt) : List Pt → Option Rat
  | [] => none
  | c :: cs => some ((cs.map (dist2 p)).foldl min (dist2 p c))

/-- The `distances` list: one `(node, min distance)` entry per region whose
centroid list is nonempty, in traversal order. -/
def centroidDistances {α : Type} (p : Pt) (regions : List (α × List Pt)) :
    List (α × Rat) :=
  regions.filterMap (fun r => (minCentroidDist p r.2).map (fun d => (r.1, d)))

/-- Comparison used by `sorted(distances, key=lambda x: x[1])`. -/
def distLE {α : Type} (a b : α × Rat) : Prop :=
  a.2 ≤ b.2

instance {α : Type} : DecidableRel (@distLE α) :=
  fun a b => inferInstanceAs (Decidable (a.2 ≤ b.2))

instance {α : Type} : IsTotal (α × Rat) distLE :=
  ⟨fun a b => le_total a.2 b.2⟩

instance {α : Type} : IsTrans (α × Rat) distLE :=
  ⟨fun _ _ _ h h' => le_trans h h'⟩

/-- The non-interactive selection of `find_download_shp`: stable-sort the
distance list ascending and take `sorted_distances[0][0]`; `none` models
the `IndexError` when no region produced a distance. -/
def nearestRegionNode {α : Type} (p : Pt) (regions : List (α × List Pt)) :
    Option α :=
  match List.insertionSort distLE (centroidDistances p regions) with
  | [] => none
  | (n, _) :: _ => some n

/-! ## ResourceFetcher: `_download_extract_shp` (`map_poster_creator/data.py`)

```python
def _download_extract_shp(shp_url: str) -> Path:
    path = paths.shp_path
    path.mkdir(parents=True, exist_ok=True)
    fname = shp_url.split('/')[-1]
    if _get_extract_dir(path, fname).exists():
        return _get_extract_dir(path, fname)
    fname = wget.download(shp_url, out=str(path))
    zip_fpath = path / fname
    extract_dir = _get_extract_dir(path, fname)
    extract_dir.mkdir(parents=False, exist_ok=False)
    with ZipFile(zip_fpath, "r") as zf:
        zf.extractall(path=str(extract_dir))
    os.remove(zip_fpath)
    return extract_dir
```

The filesystem state is the set of extraction directories existing under
the cache root `paths.shp_path`, as a list of directory names.
`wget.download` (external) is modelled as succeeding and returning the
URL's final path component (its documented behaviour for a fresh download
with no pre-existing file of that name); whether the downloaded archive
then opens and extracts cleanly is abstracted by the Boolean `archiveOk`,
since it depends on the downloaded bytes.  `extract_dir.mkdir(parents=False,
exist_ok=False)` raises `FileExistsError` on a pre-existing directory. -/

/-- Extraction directories existing under the cache root. -/
structure CacheState where
  dirs : List String
deriving DecidableEq, Repr

/-- Failures of `_download_extract_shp` after the cache check. -/
inductive FetchError where
  /-- `ZipFile`/`extractall` failed on the downloaded archive. -/
  | badArchive
  /-- `mkdir(exist_ok=False)` hit a pre-existing directory. -/
  | mkdirCollision
deriving DecidableEq, Repr

/-- Result of one `_download_extract_shp` call: the filesystem state after
the call, the returned directory or raised error, and whether any network
transfer happened. -/
structure FetchResult where
  state : CacheState
  result : Except FetchError String
  networkUsed : Bool
deriving DecidableEq, Repr

/-- Embedding of `url.split('/')[-1]`. -/
def lastComponent (url : String) : String :=
  ⟨(chSplit '/' url.data).getLastD []⟩

/-- Embedding of `Path(fname).stem` for an ordinary dotted filename: the name without
its last extension. -/
def stem (fname : String) : String :=
  match (chSplit '.' fname.data).dropLast with
  | [] => fname
  | parts => ⟨(parts.intersperse ['.']).flatten⟩

/-- Embedding of `_get_extract_dir(path, fname)`, as the directory name under the cache
root. -/
def _get_extract_dir (fname : String) : String :=
  stem fname

/-- Embedding of `_download_extract_shp`, as a state transformer on the cache-root
contents (see the section comment for the modelling of `wget` and
`ZipFile`). -/
def _download_extract_shp (st : CacheState) (shp_url : String)
    (archiveOk : Bool) : FetchResult :=
  let fname := lastComponent shp_url
  if _get_extract_dir fname ∈ st.dirs then
    { state := st, result := .ok (_get_extract_dir fname), networkUsed := false }
  else
    let extractDir := _get_extract_dir fname
    if extractDir ∈ st.dirs then
      { state := st, result := .error .mkdirCollision, networkUsed := true }
    else
      let st' : CacheState := ⟨st.dirs ++ [extractDir]⟩
      if archiveOk then
        { state := st', result := .ok extractDir, networkUsed := true }
      else
        { state := st', result := .error .badArchive, networkUsed := true }

/-! ## RegionCatalogBuilder: `navigate_node` (`scripts/build_region_tree.py`)

```python
def navigate_node(url, region="", depth=1):
    response = session.get(url)
    response.encoding = response.apparent_encoding
    if response.status_code != 200:
        print(f"Request failed: {url}", end="\r")
        return TreeNode()
    soup = BeautifulSoup(response.text, "html.parser")
    node = TreeNode(name=unidecode(region))
    node.add_feature("url", url)
    for table in find_tables(soup):
        pages = get_pages_from_table(table)
        for name, href in pages.items():
            if href.endswith(".html"):
                child_node = navigate_node(url=urljoin(url, href),
                                           region=unidecode(name), depth=depth+1)
                if child_node:
                    node.add_child(child_node)
            else:
                region_urls[region].append(urljoin(url, href))
    return node
```

The remote catalog is embedded as a `Page`: the ordered sequence of links a
page's tables yield, where each subcategory link (`href` ending in
`.html`) leads either to a further page or to a failing request (non-200
response), and every other link is a resource link.  HTML fetching/parsing
(requests, BeautifulSoup) is thus abstracted into the `Page` value itself.

Two external behaviours are modelled explicitly:
* `urllib.parse.urljoin` is abstracted as string concatenation (an opaque
  combination; no theorem below inspects URL syntax);
* ete3's `TreeNode.__bool__` returns `True` unconditionally (ete3 defines
  it so that Python 3 truthiness does not fall back to the expensive
  `__len__`), so the guard `if child_node:` always passes and the child
  produced for a failed request — a fresh `TreeNode()` with the default
  (empty) name, no `url` feature and no children — is still added. -/

/-- A node of the region tree built by the crawl: name, optional `url`
feature, ordered children. -/
inductive RNode where
  | mk (name : String) (url : Option String) (children : List RNode)

/-- Children of a crawled node. -/
def RNode.children : RNode → List RNode
  | .mk _ _ cs => cs

/-- Name of a crawled node. -/
def RNode.name : RNode → String
  | .mk n _ _ => n

/-- The remote catalog under one listing page: its links in table order. -/
inductive Page where
  /-- No further links. -/
  | nil : Page
  /-- A subcategory link (`href` ends in `.html`) whose request succeeds
  and yields the page `child`. -/
  | sub (name href : String) (child : Page) (rest : Page) : Page
  /-- A subcategory link whose request fails (non-200 response). -/
  | subFail (name href : String) (rest : Page) : Page
  /-- A non-page resource link, recorded in the URL index. -/
  | link (href : String) (rest : Page) : Page

/-- Abstract model of `urllib.parse.urljoin`. -/
def pyUrljoin (base href : String) : String :=
  base ++ href

/-- The empty `TreeNode()` returned for a failing request: default name,
no `url` feature, no children. -/
def failNode : RNode :=
  .mk ("") none []

/-- The link loop of `navigate_node` over one page's entries: returns the
children accumulated on the current node and the `(region, url)` records
appended to `region_urls`, in traversal order.  Every recursive call's
result is added as a child — including `failNode` for a failed request —
because ete3's `TreeNode.__bool__` is unconditionally `True` (see the
section comment). -/
def navigateEntries (udec : String → String) (url region : String) :
    Page → List RNode × List (String × String)
  | .nil => ([], [])
  | .sub name href child rest =>
    let sub := navigateEntries udec (pyUrljoin url href) (udec name) child
    let rst := navigateEntries udec url region rest
    (RNode.mk (udec (udec name)) (some (pyUrljoin url href)) sub.1 :: rst.1,
      sub.2 ++ rst.2)
  | .subFail _ _ rest =>
    let rst := navigateEntries udec url region rest
    (failNode :: rst.1, rst.2)
  | .link href rest =>
    let rst := navigateEntries udec url region rest
    (rst.1, (region, pyUrljoin url href) :: rst.2)

/-- Embedding of `navigate_node(url, region)`: a failing root request returns the empty
`TreeNode()`; otherwise the node named `unidecode(region)` with the `url`
feature and the children/URL records of the link loop. -/
def navigate_node (udec : String → String) (url region : String)
    (rootFails : Bool) (page : Page) : RNode × List (String × String) :=
  if rootFails then (failNode, [])
  else
    let res := navigateEntries udec url region page
    (RNode.mk (udec region) (some url) res.1, res.2)

/-! ## Theorems -/

/-- C1: For every URL whose first fetch completed successfully, a second
call to fetch with the same URL returns the identical local
extraction-directory path as the first call and performs no network I/O
(the existing directory is returned immediately). -/
theorem c1_fetch_idempotent (st : CacheState) (url : String) (ok₁ ok₂ : Bool)
    (d : String) (h : (_download_extract_shp st url ok₁).result = .ok d) :
    _download_extract_shp (_download_extract_shp st url ok₁).state url ok₂ =
      { state := (_download_extract_shp st url ok₁).state,
        result := .ok d, networkUsed := false } := by
  by_cases hmem : _get_extract_dir (lastComponent url) ∈ st.dirs
  · simp [_download_extract_shp, hmem] at h
    subst h
    simp [_download_extract_shp, hmem]
  · cases ok₁ with
    | false =>
      simp [_download_extract_shp, hmem] at h
    | true =>
      simp [_download_extract_shp, hmem] at h
      subst h
      simp [_download_extract_shp, hmem]

/-- C1 witness: a concrete first fetch succeeds, and the second fetch
returns the same directory with no network I/O. -/
theorem c1_witness :
    (_download_extract_shp ⟨[]⟩ "http://x/a.shp.zip" true).result = .ok ("a.shp")
    ∧ _download_extract_shp (_download_extract_shp ⟨[]⟩ "http://x/a.shp.zip" true).state
        "http://x/a.shp.zip" false =
      { state := (_download_extract_shp ⟨[]⟩ "http://x/a.shp.zip" true).state,
        result := .ok ("a.shp"), networkUsed := false } :=
  ⟨by decide, c1_fetch_idempotent ⟨[]⟩ "http://x/a.shp.zip" true false ("a.shp") (by decide)⟩

/-- C2 counterexample: on a cache miss for a concrete URL, a failure of the
downloaded archive to open leaves the freshly created extraction directory
behind, and a later call returns it as a valid cache hit — contradicting
the claim that the directory is created only after the archive is verified
and that no failure leaves a directory a later call would mistake for a
valid cache entry. -/
theorem c2_counterexample :
    (_download_extract_shp ⟨[]⟩ "http://x/a.shp.zip" false).result
      = .error .badArchive
    ∧ "a.shp" ∈ (_download_extract_shp ⟨[]⟩ "http://x/a.shp.zip" false).state.dirs
    ∧ _download_extract_shp
        (_download_extract_shp ⟨[]⟩ "http://x/a.shp.zip" false).state
        "http://x/a.shp.zip" true
      = { state := ⟨["a.shp"]⟩, result := .ok ("a.shp"), networkUsed := false } := by
  decide

/-- C2 amended: on a cache miss the extraction directory is created after
the download but before the archive is opened, so a failure to open or
extract the archive leaves the directory behind, and a later call for the
same URL returns it as a cache hit without any network I/O. -/
theorem c2_failed_extraction_leaves_dir (st : CacheState) (url : String)
    (ok₂ : Bool) (h : _get_extract_dir (lastComponent url) ∉ st.dirs) :
    (_download_extract_shp st url false).result = .error .badArchive
    ∧ (_download_extract_shp st url false).state.dirs
        = st.dirs ++ [_get_extract_dir (lastComponent url)]
    ∧ _download_extract_shp (_download_extract_shp st url false).state url ok₂
      = { state := (_download_extract_shp st url false).state,
          result := .ok (_get_extract_dir (lastComponent url)),
          networkUsed := false } := by
  have hmem' : _get_extract_dir (lastComponent url) ∈
      st.dirs ++ [_get_extract_dir (lastComponent url)] := by simp
  refine ⟨?_, ?_, ?_⟩ <;>
    simp [_download_extract_shp, h, hmem']

/-- C2 amended witness: the amended behaviour at a concrete cache state and
URL. -/
theorem c2_witness :
    "a.shp" ∉ CacheState.dirs ⟨[]⟩
    ∧ ((_download_extract_shp ⟨[]⟩ "http://x/a.shp.zip" false).result
        = .error .badArchive
      ∧ (_download_extract_shp ⟨[]⟩ "http://x/a.shp.zip" false).state.dirs
          = [] ++ ["a.shp"]
      ∧ _download_extract_shp
          (_download_extract_shp ⟨[]⟩ "http://x/a.shp.zip" false).state
          "http://x/a.shp.zip" true
        = { state := (_download_extract_shp ⟨[]⟩ "http://x/a.shp.zip" false).state,
            result := .ok ("a.shp"), networkUsed := false }) :=
  ⟨by decide, c2_failed_extraction_leaves_dir ⟨[]⟩ "http://x/a.shp.zip" true (by decide)⟩

/-- C10: a resolve call whose country argument matches (case-insensitively)
no `Name` in the country table raises the `IndexError` of `.iloc[0]` on an
empty selection, whatever the gazetteer contains — in particular even when
the city name itself has gazetteer matches, and before any gazetteer
matching occurs. -/
theorem c10_unknown_country_raises (udec : String → String)
    (cityDf : List CityRow) (countryDf : List CountryRow) (city c : String)
    (interactive e f : Bool)
    (h : ∀ row ∈ countryDf, strLower row.name ≠ strLower c) :
    resolve_city udec cityDf countryDf city (some c) interactive e f
      = .error .countryIndexError := by
  have hl : countryDf.filter (fun row => strLower row.name == strLower c) = [] := by
    rw [List.filter_eq_nil_iff]
    intro row hrow
    simpa using h row hrow
  simp [resolve_city, gazetteerMatches, countryCodeLookup, hl]

/-- C10 witness: a gazetteer that does match the city name, a country table
without the requested country. -/
theorem c10_witness :
    (∀ row ∈ [(⟨"US", "United States"⟩ : CountryRow)],
      strLower row.name ≠ strLower ("Narnia"))
    ∧ resolve_city id [⟨0, "springfield", "US", 100, 1, 2⟩]
        [⟨"US", "United States"⟩] "Springfield" (some ("Narnia")) true true false
      = .error .countryIndexError :=
  ⟨by decide,
    c10_unknown_country_raises id [⟨0, "springfield", "US", 100, 1, 2⟩]
      [⟨"US", "United States"⟩] "Springfield" "Narnia" true true false (by decide)⟩

/-- C5: a place name whose ASCII-folded lowercase form equals no gazetteer
row's name key resolves to the explicit empty outcome (`None`), with no
exception, both with no country filter and with a country filter that does
resolve to a code. -/
theorem c5_no_match_returns_empty (udec : String → String)
    (cityDf : List CityRow) (countryDf : List CountryRow) (city : String)
    (country : Option String) (interactive e f : Bool)
    (hname : ∀ r ∈ cityDf, strLower r.asciiname ≠ strLower (udec city))
    (hcountry : ∀ c, country = some c →
      ∃ code, countryCodeLookup countryDf c = some code) :
    resolve_city udec cityDf countryDf city country interactive e f
      = .ok .empty := by
  cases country with
  | none =>
    have hl : cityDf.filter
        (fun r => strLower r.asciiname == strLower (udec city)) = [] := by
      rw [List.filter_eq_nil_iff]
      intro r hr
      simpa using hname r hr
    simp [resolve_city, gazetteerMatches, hl, pandasSortDesc]
  | some c =>
    obtain ⟨code, hcode⟩ := hcountry c rfl
    have hl : cityDf.filter
        (fun r => strLower r.asciiname == strLower (udec city)
          && r.countryCode == code) = [] := by
      rw [List.filter_eq_nil_iff]
      intro r hr
      simp [hname r hr]
    simp [resolve_city, gazetteerMatches, hcode, hl, pandasSortDesc]

/-- C5 witness: an unknown name with no country filter, on a nonempty
gazetteer. -/
theorem c5_witness :
    (∀ r ∈ [(⟨0, "springfield", "US", 100, 1, 2⟩ : CityRow)],
      strLower r.asciiname ≠ strLower (id ("Atlantis")))
    ∧ resolve_city id [⟨0, "springfield", "US", 100, 1, 2⟩] [] "Atlantis" none
        true true false = .ok .empty :=
  ⟨by decide,
    c5_no_match_returns_empty id [⟨0, "springfield", "US", 100, 1, 2⟩] []
      "Atlantis" none true true false (by decide) (by intro c hc; cases hc)⟩

/-! ### Ranking lemmas for `pandasSortDesc` -/

/-- Inserting a row that the tie-break relation `P` places before
everything in an ascending-sorted, lexicographically ordered list keeps
the list lexicographically ordered. -/
theorem orderedInsert_pairwise_lexLTBy {P : CityRow → CityRow → Prop}
    (a : CityRow) {s : List CityRow}
    (hsort : s.Sorted popLE) (hp : s.Pairwise (lexLTBy P))
    (hP : ∀ b ∈ s, P a b) :
    (List.orderedInsert popLE a s).Pairwise (lexLTBy P) := by
  induction s with
  | nil => simp
  | cons b t ih =>
    rw [List.orderedInsert]
    by_cases hab : popLE a b
    · rw [if_pos hab]
      refine List.pairwise_cons.mpr ⟨?_, hp⟩
      intro c hc
      have hac : a.population ≤ c.population := by
        rcases List.mem_cons.mp hc with rfl | hct
        · exact hab
        · exact le_trans hab (List.rel_of_sorted_cons hsort c hct)
      rcases lt_or_eq_of_le hac with hlt | heq
      · exact Or.inl hlt
      · exact Or.inr ⟨heq, hP c hc⟩
    · rw [if_neg hab]
      have hba : b.population < a.population := lt_of_not_le hab
      refine List.pairwise_cons.mpr ⟨?_, ?_⟩
      · intro c hc
        rcases (List.mem_orderedInsert popLE).mp hc with rfl | hct
        · exact Or.inl hba
        · exact (List.pairwise_cons.mp hp).1 c hct
      · exact ih hsort.of_cons hp.of_cons
          (fun c hct => hP c (List.mem_cons_of_mem b hct))

/-- The stable ascending population sort of a `P`-pairwise list is ordered
by the lexicographic (population, `P`) order: equal-population rows keep
their input relative order. -/
theorem insertionSort_pairwise_lexLTBy {P : CityRow → CityRow → Prop}
    {l : List CityRow} (hidx : l.Pairwise P) :
    (List.insertionSort popLE l).Pairwise (lexLTBy P) := by
  induction l with
  | nil => simp
  | cons a t ih =>
    rw [List.insertionSort]
    refine orderedInsert_pairwise_lexLTBy a
      (List.sorted_insertionSort popLE t) (ih hidx.of_cons) ?_
    intro b hb
    exact (List.pairwise_cons.mp hidx).1 b
      (((List.perm_insertionSort popLE t).mem_iff).mp hb)

/-- The candidate selection of `resolve_city` preserves any pairwise
property of the gazetteer table. -/
theorem gazetteerMatches_pairwise {R : CityRow → CityRow → Prop}
    (udec : String → String) {cityDf : List CityRow}
    (countryDf : List CountryRow) (city : String) (country : Option String)
    {cands : List CityRow}
    (hdf : cityDf.Pairwise R)
    (hc : gazetteerMatches udec cityDf countryDf city country = .ok cands) :
    cands.Pairwise R := by
  cases country with
  | none =>
    simp only [gazetteerMatches, Except.ok.injEq] at hc
    exact hc ▸ hdf.filter _
  | some c =>
    simp only [gazetteerMatches] at hc
    cases hcode : countryCodeLookup countryDf c with
    | none => simp [hcode] at hc
    | some code =>
      simp only [hcode, Except.ok.injEq] at hc
      exact hc ▸ hdf.filter _

/-- A head related pairwise to the rest of the list is related to every
member of the list, given reflexivity on the head itself. -/
theorem pairwise_head_rel {α : Type} {R : α → α → Prop} {x : α} {t : List α}
    (hx : R x x) (hp : (x :: t).Pairwise R) : ∀ a ∈ x :: t, R x a := by
  intro a ha
  rcases List.mem_cons.mp ha with rfl | hat
  · exact hx
  · exact (List.pairwise_cons.mp hp).1 a hat

/-- The sort `pandasSortDesc` permutes its input and is ordered by non-increasing
population. -/
theorem pandasSortDesc_perm_sorted (cands : List CityRow) :
    (pandasSortDesc cands).Perm cands
    ∧ (pandasSortDesc cands).Pairwise (fun a b => popLE b a) := by
  constructor
  · exact (List.reverse_perm _).trans
      ((List.perm_insertionSort popLE cands.reverse).trans
        (List.reverse_perm cands))
  · exact List.pairwise_reverse.mpr
      (List.sorted_insertionSort popLE cands.reverse)

/-- C4: for every resolve call, the candidate rows are ranked by
population in descending order and are a permutation of the matching
rows, and candidates with equal population keep their original
gazetteer-table relative order (the pandas descending sort is stable: its
double reversal around the stable ascending argsort preserves tie
order). -/
theorem c4_ranking_stable (udec : String → String)
    {cityDf : List CityRow} (countryDf : List CountryRow) (city : String)
    (country : Option String) {cands : List CityRow}
    (hidx : cityDf.Pairwise (fun a b => a.index < b.index))
    (hc : gazetteerMatches udec cityDf countryDf city country = .ok cands) :
    (pandasSortDesc cands).Perm cands
    ∧ (pandasSortDesc cands).Pairwise (fun a b => popLE b a)
    ∧ (pandasSortDesc cands).Pairwise
        (fun a b => b.population < a.population
          ∨ (b.population = a.population ∧ a.index < b.index)) := by
  obtain ⟨hperm, hsorted⟩ := pandasSortDesc_perm_sorted cands
  refine ⟨hperm, hsorted, ?_⟩
  have hcands : cands.Pairwise (fun a b => a.index < b.index) :=
    gazetteerMatches_pairwise udec countryDf city country hidx hc
  have hrev : cands.reverse.Pairwise (fun a b => b.index < a.index) :=
    List.pairwise_reverse.mpr hcands
  have hsort := insertionSort_pairwise_lexLTBy hrev
  refine List.pairwise_reverse.mpr ?_
  exact hsort.imp (fun h => h)

/-- C4 witness: stability at a concrete two-candidate, equal-population
gazetteer in table order IL (index 0) then MO (index 1). -/
theorem c4_witness :
    ([(⟨0, "springfield", "IL", 100, 1, 2⟩ : CityRow),
        ⟨1, "springfield", "MO", 100, 3, 4⟩].Pairwise
      (fun a b => a.index < b.index))
    ∧ ((pandasSortDesc
          [⟨0, "springfield", "IL", 100, 1, 2⟩, ⟨1, "springfield", "MO", 100, 3, 4⟩]).Perm
        [⟨0, "springfield", "IL", 100, 1, 2⟩, ⟨1, "springfield", "MO", 100, 3, 4⟩]
      ∧ (pandasSortDesc
          [⟨0, "springfield", "IL", 100, 1, 2⟩, ⟨1, "springfield", "MO", 100, 3, 4⟩]).Pairwise
          (fun a b => popLE b a)
      ∧ (pandasSortDesc
          [⟨0, "springfield", "IL", 100, 1, 2⟩, ⟨1, "springfield", "MO", 100, 3, 4⟩]).Pairwise
          (fun a b => b.population < a.population
            ∨ (b.population = a.population ∧ a.index < b.index))) :=
  ⟨by decide,
    @c4_ranking_stable id
      [⟨0, "springfield", "IL", 100, 1, 2⟩, ⟨1, "springfield", "MO", 100, 3, 4⟩]
      [] "Springfield" none
      [⟨0, "springfield", "IL", 100, 1, 2⟩, ⟨1, "springfield", "MO", 100, 3, 4⟩]
      (by decide) (by decide)⟩

/-- C3 counterexample: with two matching candidates, `first=True` and
`interactive=True`, `resolve_city` enters the interactive prompt instead of
returning the rank-1 (highest-population) candidate directly. -/
theorem c3_counterexample :
    resolve_city id
        [⟨0, "springfield", "IL", 100, 1, 2⟩, ⟨1, "springfield", "MO", 200, 3, 4⟩]
        [] "Springfield" none true true true
      = .ok (.interactivePrompt
          [⟨1, "springfield", "MO", 200, 3, 4⟩, ⟨0, "springfield", "IL", 100, 1, 2⟩])
    ∧ resolve_city id
        [⟨0, "springfield", "IL", 100, 1, 2⟩, ⟨1, "springfield", "MO", 200, 3, 4⟩]
        [] "Springfield" none true true true
      ≠ .ok (.single ⟨1, "springfield", "MO", 200, 3, 4⟩) := by
  decide

/-- C3 amended: a resolve call with `first=True` that yields at least one
gazetteer match returns the rank-1 (highest-population) candidate directly
when `interactive` is false or when exactly one candidate matched; when
`interactive` is true and more than one candidate matches, the interactive
prompt takes precedence over `first`. -/
theorem c3_first_short_circuit (udec : String → String)
    (cityDf : List CityRow) (countryDf : List CountryRow) (city : String)
    (country : Option String) (interactive e : Bool) {cands : List CityRow}
    (hc : gazetteerMatches udec cityDf countryDf city country = .ok cands)
    (hne : cands ≠ [])
    (hni : interactive = false ∨ cands.length = 1) :
    resolve_city udec cityDf countryDf city country interactive e true
      = .ok (.single (pandasSortDesc cands).headI)
    ∧ ∀ r ∈ cands, r.population ≤ (pandasSortDesc cands).headI.population := by
  obtain ⟨hperm, hsorted⟩ := pandasSortDesc_perm_sorted cands
  have hlen : (pandasSortDesc cands).length = cands.length := hperm.length_eq
  have hlen0 : ¬(pandasSortDesc cands).length = 0 := by
    rw [hlen]
    simpa [List.length_eq_zero] using hne
  constructor
  · unfold resolve_city
    rw [hc]
    simp only [hlen0, if_false]
    have hbranch : ¬(1 < (pandasSortDesc cands).length ∧ interactive = true) := by
      rcases hni with hi | h1
      · rintro ⟨-, hit⟩
        rw [hi] at hit
        cases hit
      · rw [hlen, h1]
        rintro ⟨hlt, -⟩
        exact lt_irrefl 1 hlt
    rw [if_neg hbranch]
    simp
  · intro r hr
    have hr' : r ∈ pandasSortDesc cands := hperm.mem_iff.mpr hr
    cases hd : pandasSortDesc cands with
    | nil => rw [hd] at hr'; cases hr'
    | cons x t =>
      rw [hd] at hr' hsorted
      have hrel : popLE r x :=
        @pairwise_head_rel CityRow (fun a b => popLE b a) x t
          (le_refl x.population) hsorted r hr'
      simpa [hd, popLE] using hrel

/-- C3 amended witness: one matching candidate, `interactive=True`,
`first=True` returns it directly. -/
theorem c3_witness :
    gazetteerMatches id [⟨0, "springfield", "IL", 100, 1, 2⟩] [] "Springfield" none
      = .ok [⟨0, "springfield", "IL", 100, 1, 2⟩]
    ∧ (resolve_city id [⟨0, "springfield", "IL", 100, 1, 2⟩] [] "Springfield" none
          true true true
        = .ok (.single (pandasSortDesc [⟨0, "springfield", "IL", 100, 1, 2⟩]).headI)
      ∧ ∀ r ∈ [(⟨0, "springfield", "IL", 100, 1, 2⟩ : CityRow)],
          r.population
            ≤ (pandasSortDesc [⟨0, "springfield", "IL", 100, 1, 2⟩]).headI.population) :=
  ⟨by decide,
    c3_first_short_circuit id [⟨0, "springfield", "IL", 100, 1, 2⟩] [] "Springfield"
      none true true rfl (by decide) (Or.inr rfl)⟩

/-! ### Polygon-parse failure lemmas -/

/-- A bad coordinate line fails the classification step from any state. -/
theorem parseStep_bad {raw : List Char} (h : badCoordLine raw = true)
    (st : List Poly × Poly) : parseStep st raw = none := by
  simp only [badCoordLine] at h
  simp only [parseStep]
  split_ifs with h1 h2 h3
  · simp [h1] at h
  · simp only [ne_eq, decide_not] at h2
    simp [h2] at h
  · simp [h3] at h
  · simp only [Bool.and_eq_true, Option.isNone_iff_eq_none] at h
    rw [h.2]

/-- A bad coordinate line anywhere in the line list makes the whole parse
fail, from any state. -/
theorem parseLinesAux_none {ls : List (List Char)} {raw : List Char}
    (hmem : raw ∈ ls) (hbad : badCoordLine raw = true)
    (st : List Poly × Poly) : parseLinesAux st ls = none := by
  induction ls generalizing st with
  | nil => cases hmem
  | cons l t ih =>
    rcases List.mem_cons.mp hmem with rfl | hmt
    · simp [parseLinesAux, parseStep_bad hbad]
    · cases hstep : parseStep st l with
      | none => simp [parseLinesAux, hstep]
      | some st' =>
        simp only [parseLinesAux, hstep]
        exact ih hmt st'

/-- C8: a polygon-text blob containing a malformed coordinate line (a
non-label, non-index line with a non-numeric token) makes the parse fail,
and `get_region_polygons` turns that failure into the empty polygon list
for the node instead of propagating it. -/
theorem c8_malformed_line_degrades (s : String)
    (h : ∃ raw ∈ chSplit '_' (pyStrip s.data), badCoordLine raw = true) :
    get_region_polygons (some s) = [] ∧ _parse_polygons s = none := by
  obtain ⟨raw, hmem, hbad⟩ := h
  have hp : _parse_polygons s = none := parseLinesAux_none hmem hbad ([], [])
  exact ⟨by simp [get_region_polygons, hp], hp⟩

/-- C8 witness: a concrete blob with the non-numeric token `x1` in a
coordinate line yields the empty polygon list. -/
theorem c8_witness :
    (∃ raw ∈ chSplit '_' (pyStrip ("0 0_0 x1_END".data)), badCoordLine raw = true)
    ∧ get_region_polygons (some ("0 0_0 x1_END")) = [] :=
  ⟨by decide, (c8_malformed_line_degrades ("0 0_0 x1_END") (by decide)).1⟩

/-- C9: evaluating the crawl at a catalog whose first subcategory page
fails (non-200) while the second succeeds.  The failed page's node is
*not* omitted from the resulting tree: ete3's `TreeNode.__bool__` is
unconditionally `True`, so the `if child_node:` guard never filters and an
empty placeholder node (no name, no `url` feature, no children) is added
in its position; the failed page's subtree is empty and the crawl does
continue with the remaining pages. -/
theorem c9_failed_page_placeholder :
    navigate_node id ("https://x/") ("") false
        (.subFail ("Europe") ("europe.html") (.sub ("Africa") ("africa.html") .nil .nil))
      = (RNode.mk ("") (some ("https://x/"))
          [failNode, RNode.mk ("Africa") (some ("https://x/africa.html")) []], [])
    ∧ failNode ∈ (navigate_node id ("https://x/") ("") false
        (.subFail ("Europe") ("europe.html")
          (.sub ("Africa") ("africa.html") .nil .nil))).1.children := by
  refine ⟨rfl, ?_⟩
  show failNode ∈ [failNode, RNode.mk ("Africa") (some ("https://x/africa.html")) []]
  exact List.mem_cons_self _ _

/-! ### Nearest-centroid lemmas -/

/-- A fold of `min` is bounded by its initial value. -/
theorem foldl_min_le_init (l : List Rat) (d : Rat) : l.foldl min d ≤ d := by
  induction l generalizing d with
  | nil => exact le_refl d
  | cons x t ih => exact le_trans (ih (min d x)) (min_le_left d x)

/-- A fold of `min` is bounded by every list element. -/
theorem foldl_min_le_mem (l : List Rat) (d : Rat) :
    ∀ x ∈ l, l.foldl min d ≤ x := by
  induction l generalizing d with
  | nil => intro x hx; cases hx
  | cons y t ih =>
    intro x hx
    rcases List.mem_cons.mp hx with rfl | hxt
    · exact le_trans (foldl_min_le_init t (min d x)) (min_le_right d x)
    · exact ih (min d y) x hxt

/-- A fold of `min` is the initial value or a list element. -/
theorem foldl_min_mem (l : List Rat) (d : Rat) :
    l.foldl min d = d ∨ l.foldl min d ∈ l := by
  induction l generalizing d with
  | nil => exact Or.inl rfl
  | cons x t ih =>
    rcases ih (min d x) with h | h
    · rcases min_choice d x with hd | hx
      · exact Or.inl (by rw [List.foldl_cons, h, hd])
      · exact Or.inr (by rw [List.foldl_cons, h, hx]; exact List.mem_cons_self x t)
    · exact Or.inr (List.mem_cons_of_mem x h)

/-- The value of `minCentroidDist` on a nonempty centroid list attains the distance of
one of the centroids and bounds all of them. -/
theorem minCentroidDist_spec (p : Pt) (c : Pt) (cs : List Pt) :
    ∃ c₀ ∈ c :: cs, minCentroidDist p (c :: cs) = some (dist2 p c₀)
      ∧ ∀ c' ∈ c :: cs, dist2 p c₀ ≤ dist2 p c' := by
  have hmem : (cs.map (dist2 p)).foldl min (dist2 p c) = dist2 p c
      ∨ (cs.map (dist2 p)).foldl min (dist2 p c) ∈ cs.map (dist2 p) :=
    foldl_min_mem _ _
  have hle : ∀ c' ∈ c :: cs,
      (cs.map (dist2 p)).foldl min (dist2 p c) ≤ dist2 p c' := by
    intro c' hc'
    rcases List.mem_cons.mp hc' with rfl | hct
    · exact foldl_min_le_init _ _
    · exact foldl_min_le_mem _ _ _ (List.mem_map_of_mem (dist2 p) hct)
  rcases hmem with h | h
  · refine ⟨c, List.mem_cons_self c cs, ?_, ?_⟩
    · simp only [minCentroidDist, h]
    · intro c' hc'
      exact h ▸ hle c' hc'
  · obtain ⟨c₀, hc₀, hval⟩ := List.mem_map.mp h
    refine ⟨c₀, List.mem_cons_of_mem c hc₀, ?_, ?_⟩
    · simp only [minCentroidDist, ← hval]
    · intro c' hc'
      exact hval.symm ▸ hle c' hc'

/-- The head of the stable ascending sort of a nonempty list is the first
element attaining the minimal key: everything before its original position
has a strictly larger key, and nothing anywhere has a smaller one. -/
theorem insertionSort_head_first_min {α : Type} {l t : List (α × Rat)}
    {x : α × Rat} (h : List.insertionSort distLE l = x :: t) :
    ∃ pre post, l = pre ++ x :: post
      ∧ (∀ y ∈ pre, x.2 < y.2) ∧ ∀ y ∈ l, x.2 ≤ y.2 := by
  induction l generalizing x t with
  | nil => cases h
  | cons a l' ih =>
    rw [List.insertionSort] at h
    cases hs : List.insertionSort distLE l' with
    | nil =>
      have hl' : l' = [] := by
        have hperm := List.perm_insertionSort distLE l'
        rw [hs] at hperm
        exact hperm.symm.eq_nil
      rw [hs] at h
      simp only [List.orderedInsert] at h
      cases h
      refine ⟨[], [], by simp [hl'], ?_, ?_⟩
      · intro y hy; cases hy
      · intro y hy
        rw [hl'] at hy
        rcases List.mem_cons.mp hy with rfl | hy'
        · exact le_refl _
        · cases hy'
    | cons m t' =>
      obtain ⟨pre', post', hsplit, hpre', hmin'⟩ := ih hs
      rw [hs] at h
      simp only [List.orderedInsert] at h
      by_cases ham : distLE a m
      · rw [if_pos ham] at h
        cases h
        refine ⟨[], l', rfl, ?_, ?_⟩
        · intro y hy; cases hy
        · intro y hy
          rcases List.mem_cons.mp hy with rfl | hy'
          · exact le_refl _
          · exact le_trans ham (hmin' y hy')
      · rw [if_neg ham] at h
        have hma : m.2 < a.2 := lt_of_not_le ham
        cases h
        refine ⟨a :: pre', post', by simp [hsplit], ?_, ?_⟩
        · intro y hy
          rcases List.mem_cons.mp hy with rfl | hy'
          · exact hma
          · exact hpre' y hy'
        · intro y hy
          rcases List.mem_cons.mp hy with rfl | hy'
          · exact le_of_lt hma
          · exact hmin' y hy'

/-- C6: the unscoped nearest-centroid search computes, for every region
with at least one centroid, the minimal distance from the query point to
that region's centroids (regions with no centroids contribute nothing),
and selects the region with the globally smallest distance, ties broken in
favor of the region discovered first in traversal order. -/
theorem c6_nearest_centroid {α : Type} (p : Pt)
    (regions : List (α × List Pt)) (h : centroidDistances p regions ≠ []) :
    (∃ n d pre post,
      nearestRegionNode p regions = some n
      ∧ centroidDistances p regions = pre ++ (n, d) :: post
      ∧ (∀ y ∈ pre, d < y.2)
      ∧ ∀ y ∈ centroidDistances p regions, d ≤ y.2)
    ∧ (∀ r ∈ regions, ∀ c ∈ r.2, ∃ c₀ ∈ r.2,
        minCentroidDist p r.2 = some (dist2 p c₀)
        ∧ ∀ c' ∈ r.2, dist2 p c₀ ≤ dist2 p c')
    ∧ ∀ r ∈ regions, r.2 = [] → minCentroidDist p r.2 = none := by
  refine ⟨?_, ?_, ?_⟩
  · cases hs : List.insertionSort distLE (centroidDistances p regions) with
    | nil =>
      have hnil : centroidDistances p regions = [] := by
        have hperm := List.perm_insertionSort distLE (centroidDistances p regions)
        rw [hs] at hperm
        exact hperm.symm.eq_nil
      exact absurd hnil h
    | cons x t =>
      obtain ⟨pre, post, hsplit, hpre, hmin⟩ := insertionSort_head_first_min hs
      exact ⟨x.1, x.2, pre, post, by simp [nearestRegionNode, hs], hsplit,
        hpre, hmin⟩
  · rintro ⟨n, cs⟩ - c hc
    cases cs with
    | nil => cases hc
    | cons c' cs' => exact minCentroidDist_spec p c' cs'
  · rintro ⟨n, cs⟩ - hcs
    rw [hcs]
    rfl

/-- C6 witness: three regions — one with no centroids (skipped), one at
squared distance 25, one at squared distance 2 — the search returns a
region, and it satisfies the first-minimum characterisation. -/
theorem c6_witness :
    centroidDistances ⟨0, 0⟩
        [((0 : Nat), ([] : List Pt)), (1, [⟨3, 4⟩]), (2, [⟨1, 1⟩])] ≠ []
    ∧ ((∃ n d pre post,
        nearestRegionNode ⟨0, 0⟩
            [((0 : Nat), ([] : List Pt)), (1, [⟨3, 4⟩]), (2, [⟨1, 1⟩])] = some n
        ∧ centroidDistances ⟨0, 0⟩
            [((0 : Nat), ([] : List Pt)), (1, [⟨3, 4⟩]), (2, [⟨1, 1⟩])]
            = pre ++ (n, d) :: post
        ∧ (∀ y ∈ pre, d < y.2)
        ∧ ∀ y ∈ centroidDistances ⟨0, 0⟩
            [((0 : Nat), ([] : List Pt)), (1, [⟨3, 4⟩]), (2, [⟨1, 1⟩])], d ≤ y.2)
      ∧ (∀ r ∈ [((0 : Nat), ([] : List Pt)), (1, [⟨3, 4⟩]), (2, [⟨1, 1⟩])],
          ∀ c ∈ r.2, ∃ c₀ ∈ r.2,
            minCentroidDist ⟨0, 0⟩ r.2 = some (dist2 ⟨0, 0⟩ c₀)
            ∧ ∀ c' ∈ r.2, dist2 ⟨0, 0⟩ c₀ ≤ dist2 ⟨0, 0⟩ c')
      ∧ ∀ r ∈ [((0 : Nat), ([] : List Pt)), (1, [⟨3, 4⟩]), (2, [⟨1, 1⟩])],
          r.2 = [] → minCentroidDist ⟨0, 0⟩ r.2 = none) :=
  have hne : centroidDistances ⟨0, 0⟩
      [((0 : Nat), ([] : List Pt)), (1, [⟨3, 4⟩]), (2, [⟨1, 1⟩])] ≠ [] := by
    simp [centroidDistances, minCentroidDist]
  ⟨hne, c6_nearest_centroid ⟨0, 0⟩
    [((0 : Nat), ([] : List Pt)), (1, [⟨3, 4⟩]), (2, [⟨1, 1⟩])] hne⟩

/-! ### Polygon-grammar lemmas -/

/-- An ignorable line contributes no coordinate. -/
theorem coordLineVal_of_ignorable {raw : List Char}
    (h : ignorableLine raw = true) : coordLineVal raw = none := by
  simp only [ignorableLine, Bool.and_eq_true, Bool.or_eq_true] at h
  simp only [coordLineVal]
  split_ifs with h1 h2 h3
  · rfl
  · rfl
  · rfl
  · rcases h.2 with ha | hd
    · exact absurd ha h2
    · exact absurd hd h3

/-- Step lemma: an ignorable line leaves the loop state unchanged. -/
theorem parseStep_ignorable {raw : List Char} (h : ignorableLine raw = true)
    (st : List Poly × Poly) : parseStep st raw = some st := by
  simp only [ignorableLine, Bool.and_eq_true, Bool.or_eq_true,
    Bool.not_eq_true', beq_eq_false_iff_ne] at h
  obtain ⟨hend, had⟩ := h
  simp only [parseStep, if_neg hend]
  rcases had with ha | hd
  · rw [if_pos ha]
  · by_cases ha : pyIsAlpha ((pyStrip raw).filter (fun c => c ≠ '-')) = true
    · rw [if_pos ha]
    · rw [if_neg ha, if_pos hd]

/-- Step lemma: a well-formed coordinate line appends its coordinate to
the current polygon. -/
theorem parseStep_coord {raw : List Char} {co : Coord}
    (h : coordLineVal raw = some co) (st : List Poly × Poly) :
    parseStep st raw = some (st.1, st.2 ++ [co]) := by
  simp only [coordLineVal] at h
  by_cases h1 : pyStrip raw = endMark
  · rw [if_pos h1] at h
    cases h
  rw [if_neg h1] at h
  by_cases h2 : pyIsAlpha ((pyStrip raw).filter (fun c => c ≠ '-')) = true
  · rw [if_pos h2] at h
    cases h
  rw [if_neg h2] at h
  by_cases h3 : pyIsDigit (pyStrip raw) = true
  · rw [if_pos h3] at h
    cases h
  rw [if_neg h3] at h
  simp only [parseStep, if_neg h1, if_neg h2, if_neg h3, h]

/-- Step lemma: an `END` line flushes a nonempty accumulator and resets
it. -/
theorem parseStep_end {raw : List Char} (h : isEndLine raw = true)
    (st : List Poly × Poly) :
    parseStep st raw
      = some (if st.2.isEmpty then (st.1, []) else (st.1 ++ [st.2], [])) := by
  simp only [isEndLine, beq_iff_eq] at h
  simp only [parseStep, if_pos h]

/-- Running the loop through a block of ignorable/coordinate lines
accumulates exactly the block's coordinates. -/
theorem parseLinesAux_block (ps : List Poly) (rest : List (List Char)) :
    ∀ b : List (List Char), b.all goodBlockLine = true → ∀ cur : Poly,
      parseLinesAux (ps, cur) (b ++ rest)
        = parseLinesAux (ps, cur ++ blockCoords b) rest := by
  intro b
  induction b with
  | nil =>
    intro _ cur
    simp [blockCoords]
  | cons l t ih =>
    intro hb cur
    rw [List.all_cons, Bool.and_eq_true] at hb
    obtain ⟨hl, ht⟩ := hb
    have hl' := hl
    simp only [goodBlockLine, Bool.or_eq_true] at hl'
    rcases hl' with hig | hsome
    · have hnone := coordLineVal_of_ignorable hig
      rw [List.cons_append]
      simp only [parseLinesAux, parseStep_ignorable hig]
      rw [ih ht cur]
      simp [blockCoords, List.filterMap_cons, hnone]
    · obtain ⟨c, hc⟩ := Option.isSome_iff_exists.mp hsome
      rw [List.cons_append]
      simp only [parseLinesAux, parseStep_coord hc]
      rw [ih ht (cur ++ [c])]
      simp [blockCoords, List.filterMap_cons, hc]

/-- A well-formed blob parses to exactly its blocks' coordinate lists,
whatever polygons were already accumulated. -/
theorem blobOk_parseLinesAux {ls : List (List Char)} {ps' : List Poly}
    (h : BlobOk ls ps') :
    ∀ ps : List Poly, parseLinesAux (ps, []) ls = some (ps ++ ps') := by
  induction h with
  | trail l hl =>
    intro ps
    have hb := parseLinesAux_block ps [] l hl []
    simpa using hb
  | block b endl rest ps2 hb he hrest ih =>
    intro ps
    simp only [goodBlock, Bool.and_eq_true, Bool.not_eq_true'] at hb
    obtain ⟨hall, hne⟩ := hb
    rw [parseLinesAux_block ps (endl :: rest) b hall []]
    simp only [List.nil_append]
    simp only [parseLinesAux, parseStep_end he, hne, Bool.false_eq_true,
      if_false]
    rw [ih (ps ++ [blockCoords b])]
    simp

/-- Lines allowed inside a block are never `END` markers. -/
theorem goodBlockLine_not_end {raw : List Char}
    (h : goodBlockLine raw = true) : isEndLine raw = false := by
  simp only [goodBlockLine, Bool.or_eq_true] at h
  simp only [isEndLine, beq_eq_false_iff_ne]
  rcases h with hig | hsome
  · simp only [ignorableLine, Bool.and_eq_true, Bool.not_eq_true',
      beq_eq_false_iff_ne] at hig
    exact hig.1
  · intro heq
    simp only [coordLineVal, if_pos heq] at hsome
    cases hsome

/-- A well-formed blob has exactly one `END` marker per parsed polygon. -/
theorem blobOk_countP {ls : List (List Char)} {ps' : List Poly}
    (h : BlobOk ls ps') : ls.countP isEndLine = ps'.length := by
  induction h with
  | trail l hl =>
    simp only [List.length_nil]
    rw [List.countP_eq_zero]
    intro a ha
    rw [goodBlockLine_not_end (List.all_eq_true.mp hl a ha)]
    exact Bool.false_ne_true
  | block b endl rest ps2 hb he hrest ih =>
    have hb0 : b.countP isEndLine = 0 := by
      rw [List.countP_eq_zero]
      intro a ha
      simp only [goodBlock, Bool.and_eq_true] at hb
      rw [goodBlockLine_not_end (List.all_eq_true.mp hb.1 a ha)]
      exact Bool.false_ne_true
    rw [List.countP_append, List.countP_cons, hb0, ih, he]
    simp [Nat.add_comm]

/-- Every polygon of a well-formed blob is nonempty. -/
theorem blobOk_nonempty {ls : List (List Char)} {ps' : List Poly}
    (h : BlobOk ls ps') : ∀ p ∈ ps', p ≠ [] := by
  induction h with
  | trail l hl =>
    intro p hp
    cases hp
  | block b endl rest ps2 hb he hrest ih =>
    intro p hp
    rcases List.mem_cons.mp hp with rfl | hp'
    · simp only [goodBlock, Bool.and_eq_true, Bool.not_eq_true'] at hb
      intro hnil
      rw [hnil] at hb
      cases hb.2
    · exact ih p hp'

/-- C7: a polygon-text blob whose line list is a sequence of `END`-closed
blocks (each a mix of ignorable label/index lines and well-formed
coordinate lines, with at least one coordinate line), optionally followed
by a trailing run without `END`, parses to exactly one polygon per `END`
marker, each carrying its block's coordinates in original input order, and
every returned polygon is nonempty. -/
theorem c7_parse_counts_polygons (s : String) (ps : List Poly)
    (h : BlobOk (chSplit '_' (pyStrip s.data)) ps) :
    _parse_polygons s = some ps
    ∧ (chSplit '_' (pyStrip s.data)).countP isEndLine = ps.length
    ∧ ∀ p ∈ ps, p ≠ [] := by
  refine ⟨?_, blobOk_countP h, blobOk_nonempty h⟩
  have hp := blobOk_parseLinesAux h []
  simpa [_parse_polygons] using hp

/-- C7 witness: a concrete blob with one label line, one index line, three
coordinate lines and one `END` marker parses to exactly one nonempty
polygon with the coordinates in input order. -/
theorem c7_witness :
    BlobOk (chSplit '_' (pyStrip ("p-one_3_0 0_0 1_1 1_END".data)))
      [[[0, 0], [0, 1], [1, 1]]]
    ∧ _parse_polygons ("p-one_3_0 0_0 1_1 1_END") = some [[[0, 0], [0, 1], [1, 1]]]
    ∧ (chSplit '_' (pyStrip ("p-one_3_0 0_0 1_1 1_END".data))).countP isEndLine
        = [[[(0 : Rat), 0], [0, 1], [1, 1]]].length
    ∧ ∀ p ∈ [[[(0 : Rat), 0], [0, 1], [1, 1]]], p ≠ [] :=
  have hblob : BlobOk (chSplit '_' (pyStrip ("p-one_3_0 0_0 1_1 1_END".data)))
      [[[0, 0], [0, 1], [1, 1]]] :=
    BlobOk.block ["p-one".data, "3".data, "0 0".data, "0 1".data, "1 1".data]
      "END".data [] [] (by decide) (by decide) (BlobOk.trail [] (by decide))
  have hmain := c7_parse_counts_polygons ("p-one_3_0 0_0 1_1 1_END")
    [[[0, 0], [0, 1], [1, 1]]] hblob
  ⟨hblob, hmain.1, hmain.2.1, hmain.2.2⟩

end MapPoster
